import Mathlib

/-!
# Verification of the Google Drive inventory tools

A shallow embedding, in Lean 4, of the core crawl / aggregation /
classification logic of the `google-drive-inventory-tools` repository
(Google Apps Script sources), together with theorems settling the frozen
claims about it.

Conventions of the embedding:

* JavaScript strings are Lean `String`s; character-level operations
  (`split('.')`, `includes`, `toLowerCase`, …) are re-implemented over
  `List Char` so that all definitions evaluate by `decide`/`rfl`.
* JavaScript numbers that are used as integral counters, byte sizes,
  day counts and scores are `Nat` (the sources only ever add
  non-negative integral point values and compare against integral
  thresholds in the claims' scope).
* JavaScript objects used as string-keyed count maps are association
  lists `List (String × Nat)` preserving insertion order (as JS object
  keys do); in-place mutation becomes explicit state passing.
* The spreadsheet / Drive / trigger layers are external I/O and are not
  part of any claim's meaning; only the aggregate-state updates, the
  batching control flow and the checkpoint property store are embedded.
-/

/-! ## Generic string and association-list helpers (JS semantics) -/

/-- JS `String.prototype.startsWith` on character lists. -/
def leadMatch : List Char → List Char → Bool
  | [], _ => true
  | _ :: _, [] => false
  | p :: ps, c :: cs => p == c && leadMatch ps cs

/-- JS `String.prototype.includes`: does `hay` contain `pat` as a
contiguous substring? -/
def subMatch (pat : List Char) : List Char → Bool
  | [] => pat.isEmpty
  | c :: cs => leadMatch pat (c :: cs) || subMatch pat cs

/-- `s.includes(pat)` for Lean strings. -/
def strIncludes (s pat : String) : Bool :=
  subMatch pat.data s.data

/-- `s.startsWith(pat)` for Lean strings. -/
def strStartsWith (s pat : String) : Bool :=
  leadMatch pat.data s.data

/-- ASCII lower-casing of one character, as JS `toLowerCase` acts on the
ASCII inputs appearing in this code base. -/
def lowerChar (c : Char) : Char :=
  if 'A' ≤ c ∧ c ≤ 'Z' then Char.ofNat (c.toNat + 32) else c

/-- ASCII upper-casing of one character. -/
def upperChar (c : Char) : Char :=
  if 'a' ≤ c ∧ c ≤ 'z' then Char.ofNat (c.toNat - 32) else c

/-- JS `s.toLowerCase()`. -/
def strLower (s : String) : String :=
  ⟨s.data.map lowerChar⟩

/-- JS `s.toUpperCase()`. -/
def strUpper (s : String) : String :=
  ⟨s.data.map upperChar⟩

/-- The segments of `cs` split at the separator character `sep`
(JS `s.split(sep)`; always returns at least one segment). -/
def splitSeg (sep : Char) : List Char → List (List Char)
  | [] => [[]]
  | c :: cs =>
    let rest := splitSeg sep cs
    if c == sep then [] :: rest
    else match rest with
      | [] => [[c]]
      | seg :: segs => (c :: seg) :: segs

/-- JS `fileName.split('.').pop()`: the last segment of the split, which
is the (possibly empty) extension-candidate. -/
def lastSeg (sep : Char) (s : String) : String :=
  ⟨(splitSeg sep s.data).getLastD []⟩

/-- Association-list lookup with string keys, mirroring a JS object
literal lookup `table[key]`. -/
def alookup (key : String) : List (String × String) → Option String
  | [] => none
  | (k, v) :: rest => if key = k then some v else alookup key rest

/-- `m[k] = (m[k] || 0) + 1` on an insertion-ordered string-keyed count
map: update in place if present, else append. -/
def bumpCount (m : List (String × Nat)) (key : String) : List (String × Nat) :=
  match m with
  | [] => [(key, 1)]
  | (k, v) :: rest =>
    if key = k then (k, v + 1) :: rest else (k, v) :: bumpCount rest key

/-- Same, for `Nat`-keyed maps (the `filesByYear` tallies). -/
def bumpCountNat (m : List (Nat × Nat)) (key : Nat) : List (Nat × Nat) :=
  match m with
  | [] => [(key, 1)]
  | (k, v) :: rest =>
    if key = k then (k, v + 1) :: rest else (k, v) :: bumpCountNat rest key

/-! ## Descending sort used by the top-K lists

JS `list.sort((a, b) => b.key - a.key)` is a stable sort putting larger
keys first.  We embed it as a stable insertion sort. -/

/-- Insert `x` into a descending-sorted list, after all entries with a
strictly larger or equal key that precede it (stability). -/
def insertDescBy {α : Type} (key : α → Nat) (x : α) : List α → List α
  | [] => [x]
  | y :: ys => if key y < key x then x :: y :: ys else y :: insertDescBy key x ys

/-- Stable sort, descending by `key`. -/
def sortDescBy {α : Type} (key : α → Nat) : List α → List α
  | [] => []
  | x :: xs => insertDescBy key x (sortDescBy key xs)

/-- `l` is sorted descending by `key` (each entry's key is `≥` every
later entry's key). -/
def SortedDescBy {α : Type} (key : α → Nat) (l : List α) : Prop :=
  List.Pairwise (fun a b => key b ≤ key a) l

instance {α : Type} (key : α → Nat) (l : List α) :
    Decidable (SortedDescBy key l) :=
  List.instDecidablePairwise l

/-! ## `getFileType` (drive-inventory-complete.js, lines 453-494) -/

/-- The static extension-to-label table of
`drive-inventory-complete.js` (`getFileType`). -/
def typeMapComplete : List (String × String) :=
  [("doc", "Word Document"), ("docx", "Word Document"),
   ("pdf", "PDF"), ("txt", "Text File"), ("rtf", "Rich Text"),
   ("xls", "Excel"), ("xlsx", "Excel"), ("csv", "CSV"),
   ("ppt", "PowerPoint"), ("pptx", "PowerPoint"),
   ("jpg", "Image"), ("jpeg", "Image"), ("png", "Image"),
   ("gif", "Image"), ("svg", "Image"), ("bmp", "Image"),
   ("mp4", "Video"), ("avi", "Video"), ("mov", "Video"),
   ("wmv", "Video"), ("flv", "Video"), ("mkv", "Video"),
   ("mp3", "Audio"), ("wav", "Audio"), ("flac", "Audio"),
   ("zip", "Archive"), ("rar", "Archive"), ("7z", "Archive"),
   ("js", "Code"), ("html", "Code"), ("css", "Code"),
   ("py", "Code"), ("java", "Code"), ("cpp", "Code")]

/-- The MIME prefix of Google-native files. -/
def googlePrefix : String := "application/vnd.google-apps."

/-- `googleType.charAt(0).toUpperCase() + googleType.slice(1)`. -/
def capFirst (s : String) : String :=
  match s.data with
  | [] => ""
  | c :: cs => ⟨upperChar c :: cs⟩

/-- `fileName.split('.').pop().toLowerCase()` — the lower-cased
extension candidate of a file name. -/
def extOf (fileName : String) : String :=
  strLower (lastSeg '.' fileName)

/-- `getFileType(fileName, mimeType)` of `drive-inventory-complete.js`:
Google-native files map their MIME subtype to `Google <Subtype>`;
otherwise the lower-cased last dot-segment is looked up in the static
table, falling back to the upper-cased extension, or `"Unknown"` when
the extension is empty (JS `typeMap[ext] || ext.toUpperCase() || 'Unknown'`). -/
def getFileType (fileName mimeType : String) : String :=
  if strStartsWith mimeType googlePrefix then
    "Google " ++ capFirst ⟨mimeType.data.drop googlePrefix.length⟩
  else
    let extension := extOf fileName
    match alookup extension typeMapComplete with
    | some label => label
    | none =>
      let up := strUpper extension
      if up = "" then "Unknown" else up

/-- The (smaller) static extension table of
`drive-inventory-optimized.js` (`getFileTypeSimple`). -/
def typeMapSimple : List (String × String) :=
  [("pdf", "PDF"), ("doc", "Word"), ("docx", "Word"), ("txt", "Text"),
   ("xls", "Excel"), ("xlsx", "Excel"), ("csv", "CSV"),
   ("ppt", "PowerPoint"), ("pptx", "PowerPoint"),
   ("jpg", "Image"), ("jpeg", "Image"), ("png", "Image"), ("gif", "Image"),
   ("mp4", "Video"), ("avi", "Video"), ("mov", "Video"),
   ("mp3", "Audio"), ("wav", "Audio"),
   ("zip", "Archive"), ("rar", "Archive")]

/-- `getFileTypeSimple(fileName, mimeType)` of
`drive-inventory-optimized.js`: identical structure to `getFileType`
with a smaller table. -/
def getFileTypeSimple (fileName mimeType : String) : String :=
  if strStartsWith mimeType googlePrefix then
    "Google " ++ capFirst ⟨mimeType.data.drop googlePrefix.length⟩
  else
    let extension := extOf fileName
    match alookup extension typeMapSimple with
    | some label => label
    | none =>
      let up := strUpper extension
      if up = "" then "Unknown" else up

/-! ## Shared-files security audit (shared-files-audit.js)

`extractSharedFileData` produces a record of per-file facts; the pure
risk computation `assessSecurityRisk` and the aggregate update
`processSharedFile` are embedded over that record. -/

/-- `CONFIG.HIGH_RISK_KEYWORDS` of shared-files-audit.js. -/
def highRiskKeywords : List String :=
  ["confidential", "secret", "private", "internal", "restricted",
   "salary", "budget", "financial", "contract", "agreement",
   "password", "credential", "api", "key", "token",
   "personal", "ssn", "social security", "bank", "account"]

/-- The `sensitiveTypes` list inside `assessSecurityRisk`. -/
def sensitiveTypes : List String :=
  ["pdf", "doc", "docx", "xls", "xlsx", "csv"]

/-- The fields of the `fileData` object built by
`extractSharedFileData` that the audit logic reads. -/
structure AuditFile where
  name : String
  description : String
  ftype : String
  size : Nat
  owner : String
  folderPath : String
  url : String
  sharingAccess : String
  sharingPermission : String
  viewers : List String
  editors : List String
  externalDomains : List String
  isPublic : Bool
  isDomainShared : Bool
  deriving Repr, DecidableEq

/-- The number of high-risk keywords matched by a file's (lower-cased)
name or description — the `forEach` in `assessSecurityRisk` adds 5
points per matched keyword. -/
def matchedKeywordCount (fd : AuditFile) : Nat :=
  (highRiskKeywords.filter fun kw =>
    strIncludes (strLower fd.name) kw || strIncludes (strLower fd.description) kw).length

/-- The sharing-exposure addend of `assessSecurityRisk`
(`if isPublic … else if isDomainShared … else if externalDomains.length > 0 …`). -/
def sharingPoints (fd : AuditFile) : Nat :=
  if fd.isPublic then 40
  else if fd.isDomainShared then 20
  else if fd.externalDomains.length > 0 then 25
  else 0

/-- The permission-level addend of `assessSecurityRisk`
(`EDIT && isPublic → 20; EDIT → 10`). -/
def permissionPoints (fd : AuditFile) : Nat :=
  if fd.sharingPermission = "EDIT" ∧ fd.isPublic then 20
  else if fd.sharingPermission = "EDIT" then 10
  else 0

/-- The file-type addend of `assessSecurityRisk`
(`sensitiveTypes.includes(type.toLowerCase()) → 10`). -/
def typePoints (fd : AuditFile) : Nat :=
  if sensitiveTypes.contains (strLower fd.ftype) then 10 else 0

/-- The external-domain-count addend of `assessSecurityRisk`
(`> 5 → 15; > 2 → 10; > 0 → 5`). -/
def extDomainPoints (fd : AuditFile) : Nat :=
  if fd.externalDomains.length > 5 then 15
  else if fd.externalDomains.length > 2 then 10
  else if fd.externalDomains.length > 0 then 5
  else 0

/-- `assessSecurityRisk(fileData)` of shared-files-audit.js
(lines 380-427).  The JS accumulates `riskScore +=` contributions in
order — sharing exposure, permission level, 5 points per matched
keyword — then executes `riskScore = Math.min(riskScore, 25)` on that
accumulated total, then adds the file-type and external-domain-count
contributions, and finally clamps at 100; each `+=` branch is an
independent addend, so the accumulation is written as a sum. -/
def assessSecurityRisk (fd : AuditFile) : Nat :=
  min
    (min (sharingPoints fd + permissionPoints fd + 5 * matchedKeywordCount fd) 25
      + typePoints fd + extDomainPoints fd)
    100

/-- An entry of `stats.highRiskFiles` as pushed by `processSharedFile`. -/
structure HighRiskEntry where
  name : String
  ftype : String
  size : Nat
  owner : String
  sharingAccess : String
  sharingPermission : String
  path : String
  url : String
  riskScore : Nat
  externalDomains : List String
  viewerCount : Nat
  editorCount : Nat
  deriving Repr, DecidableEq

/-- The aggregate state of the shared-files audit
(`initializeSharedFilesStats`), restricted to the fields the claims
concern (`startTime` is wall-clock I/O and not modelled). -/
structure SharedStats where
  totalFiles : Nat
  totalSize : Nat
  byAccessLevel : List (String × Nat)
  byPermission : List (String × Nat)
  byOwner : List (String × Nat)
  byFileType : List (String × Nat)
  publicFiles : Nat
  domainSharedFiles : Nat
  externallySharedFiles : Nat
  internallySharedFiles : Nat
  highRiskFiles : List HighRiskEntry
  externalDomains : List (String × Nat)
  errors : Nat
  deriving Repr, DecidableEq

/-- The fresh audit state produced by `initializeSharedFilesStats({})`. -/
def initSharedStats : SharedStats :=
  { totalFiles := 0, totalSize := 0, byAccessLevel := [], byPermission := [],
    byOwner := [], byFileType := [], publicFiles := 0, domainSharedFiles := 0,
    externallySharedFiles := 0, internallySharedFiles := 0,
    highRiskFiles := [], externalDomains := [], errors := 0 }

/-- `categorizeSharing(fileData, stats)` of shared-files-audit.js. -/
def categorizeSharing (fd : AuditFile) (s : SharedStats) : SharedStats :=
  if fd.isPublic then { s with publicFiles := s.publicFiles + 1 }
  else if fd.isDomainShared then { s with domainSharedFiles := s.domainSharedFiles + 1 }
  else if fd.externalDomains.length > 0 then
    { s with externallySharedFiles := s.externallySharedFiles + 1 }
  else { s with internallySharedFiles := s.internallySharedFiles + 1 }

/-- `processSharedFile(file, spreadsheet, stats)` of
shared-files-audit.js (lines 213-273), restricted to its `stats`
mutations (the sheet append is external output): counters, grouped
tallies, sharing categorisation, the `riskLevel >= 70` high-risk push
with sort-descending-and-keep-100, and external-domain tallies. -/
def processSharedFile (fd : AuditFile) (s : SharedStats) : SharedStats :=
  let s := { s with totalFiles := s.totalFiles + 1, totalSize := s.totalSize + fd.size }
  let s := { s with byAccessLevel := bumpCount s.byAccessLevel fd.sharingAccess }
  let s := { s with byPermission := bumpCount s.byPermission fd.sharingPermission }
  let s := { s with byOwner := bumpCount s.byOwner fd.owner }
  let s := { s with byFileType := bumpCount s.byFileType fd.ftype }
  let s := categorizeSharing fd s
  let riskLevel := assessSecurityRisk fd
  let s :=
    if riskLevel ≥ 70 then
      let entry : HighRiskEntry :=
        { name := fd.name, ftype := fd.ftype, size := fd.size, owner := fd.owner,
          sharingAccess := fd.sharingAccess, sharingPermission := fd.sharingPermission,
          path := fd.folderPath, url := fd.url, riskScore := riskLevel,
          externalDomains := fd.externalDomains,
          viewerCount := fd.viewers.length, editorCount := fd.editors.length }
      { s with highRiskFiles :=
          (sortDescBy (fun e => e.riskScore) (s.highRiskFiles ++ [entry])).take 100 }
    else s
  { s with externalDomains := fd.externalDomains.foldl (fun m d => bumpCount m d) s.externalDomains }

/-- A run of the audit over a stream of already-extracted shared-file
records (the per-batch loop of `runSharedFilesAuditBatch`, iterated). -/
def runSharedAudit (fds : List AuditFile) (s : SharedStats) : SharedStats :=
  fds.foldl (fun acc fd => processSharedFile fd acc) s

/-! ## `calculateCleanupScore` (large-files analysis script) -/

/-- The `suspiciousTypes` list inside `calculateCleanupScore`. -/
def suspiciousTypes : List String :=
  ["zip", "rar", "tar", "backup", "tmp", "log"]

/-- The fields of the record built by `extractLargeFileData` that
`calculateCleanupScore` reads. -/
structure CleanupFile where
  name : String
  ftype : String
  size : Nat
  ageInDays : Nat
  sharingAccess : String
  deriving Repr, DecidableEq

/-- The bucketed age addend of `calculateCleanupScore` (0-40 points). -/
def agePoints (fd : CleanupFile) : Nat :=
  if fd.ageInDays > 730 then 40
  else if fd.ageInDays > 365 then 30
  else if fd.ageInDays > 180 then 20
  else if fd.ageInDays > 90 then 10
  else 0

/-- The bucketed size addend of `calculateCleanupScore` (10-30 points;
the JS float comparison `size / (1024*1024) > T` is written as the
equivalent integer comparison `size > T * 1024 * 1024`). -/
def sizePoints (fd : CleanupFile) : Nat :=
  if fd.size > 1000 * 1024 * 1024 then 30
  else if fd.size > 500 * 1024 * 1024 then 25
  else if fd.size > 100 * 1024 * 1024 then 20
  else if fd.size > 50 * 1024 * 1024 then 15
  else 10

/-- The file-type addend of `calculateCleanupScore` (0-20 points). -/
def cleanupTypePoints (fd : CleanupFile) : Nat :=
  if suspiciousTypes.any (fun t => strIncludes (strLower fd.ftype) t) then 20
  else if strIncludes (strLower fd.ftype) "video" ∨ strIncludes (strLower fd.ftype) "audio" then 10
  else 0

/-- The sharing addend of `calculateCleanupScore` (0-10 points). -/
def cleanupSharePoints (fd : CleanupFile) : Nat :=
  if fd.sharingAccess = "Private" then 10 else 0

/-- `calculateCleanupScore(fileData)` of the large-files analysis
script (lines 382-414): the JS accumulates `score +=` contributions —
age bucket, size bucket, file-type, sharing — and clamps at 100; each
`+=` branch is an independent addend, so the accumulation is written
as a sum. -/
def calculateCleanupScore (fd : CleanupFile) : Nat :=
  min (agePoints fd + sizePoints fd + cleanupTypePoints fd + cleanupSharePoints fd) 100

/-! ### The keyword sub-cap (C3) and score monotonicity (C4) -/

/-- A concrete input for the sub-cap analysis: a publicly shared,
publicly editable PDF whose name and description match no sensitive
keyword and which has no external collaborator domains. -/
def pubEditPdf : AuditFile :=
  { name := "report", description := "", ftype := "PDF", size := 1000,
    owner := "owner@corp.com", folderPath := "Root", url := "https://u",
    sharingAccess := "ANYONE", sharingPermission := "EDIT",
    viewers := [], editors := [], externalDomains := [],
    isPublic := true, isDomainShared := false }

/-- A domain-shared file (spec sharing-exposure level `domain`) with a
single external collaborator domain. -/
def domainSharedDoc : AuditFile :=
  { name := "notes", description := "", ftype := "Image", size := 10,
    owner := "o@corp.com", folderPath := "Root", url := "https://u2",
    sharingAccess := "DOMAIN_WITH_LINK", sharingPermission := "VIEW",
    viewers := ["v@partner.com"], editors := [], externalDomains := ["partner.com"],
    isPublic := false, isDomainShared := true }

/-- The same record at the lower spec sharing-exposure level
`external`: only the `isDomainShared` factor differs. -/
def externalOnlyDoc : AuditFile :=
  { domainSharedDoc with isDomainShared := false }

/-! ## Complete-version inventory aggregation
(drive-inventory-complete.js, `processFileForInventory`) -/

/-- The fields of the record built by `extractFileData` that
`processFileForInventory` reads.  `year` is `new
Date(lastModified).getFullYear()` and `ageInDays` is the elapsed-day
count against the (fixed) crawl time; both are integral inputs here
since `Date` arithmetic is platform I/O. -/
structure FileData where
  name : String
  ftype : String
  size : Nat
  year : Nat
  ageInDays : Nat
  lastModified : String
  folderPath : String
  owner : String
  sharingAccess : String
  sharingPermission : String
  url : String
  deriving Repr, DecidableEq

/-- An entry of `stats.largeFiles`. -/
structure LargeEntry where
  name : String
  size : Nat
  path : String
  url : String
  deriving Repr, DecidableEq

/-- An entry of `stats.oldFiles`. -/
structure OldEntry where
  name : String
  lastModified : String
  ageInDays : Nat
  path : String
  url : String
  deriving Repr, DecidableEq

/-- An entry of `stats.sharedFiles`. -/
structure SharedEntry where
  name : String
  sharingAccess : String
  sharingPermission : String
  path : String
  url : String
  deriving Repr, DecidableEq

/-- An entry of a `stats.duplicateCandidates[key]` group. -/
structure DupEntry where
  name : String
  path : String
  size : Nat
  lastModified : String
  url : String
  deriving Repr, DecidableEq

/-- The aggregate state of the complete inventory (`initializeStats`),
restricted to the fields the claims concern (`startTime` is wall-clock
I/O and not modelled). -/
structure AggStats where
  totalFiles : Nat
  totalSize : Nat
  filesByType : List (String × Nat)
  filesByFolder : List (String × Nat)
  filesByOwner : List (String × Nat)
  filesByYear : List (Nat × Nat)
  largeFiles : List LargeEntry
  oldFiles : List OldEntry
  sharedFiles : List SharedEntry
  duplicateCandidates : List (String × List DupEntry)
  errors : Nat
  deriving Repr, DecidableEq

/-- The fresh state produced by `initializeStats({})`. -/
def initStats : AggStats :=
  { totalFiles := 0, totalSize := 0, filesByType := [], filesByFolder := [],
    filesByOwner := [], filesByYear := [], largeFiles := [], oldFiles := [],
    sharedFiles := [], duplicateCandidates := [], errors := 0 }

/-- `stats.duplicateCandidates[key].push(entry)`, creating the group
first when absent (`if (!stats.duplicateCandidates[key]) … = []`). -/
def addDupCandidate (m : List (String × List DupEntry)) (key : String)
    (e : DupEntry) : List (String × List DupEntry) :=
  match m with
  | [] => [(key, [e])]
  | (k, es) :: rest =>
    if key = k then (k, es ++ [e]) :: rest else (k, es) :: addDupCandidate rest key e

/-- `CONFIG.LARGE_FILE_THRESHOLD_MB * 1024 * 1024` of the complete
script (50 MB). -/
def largeThresholdComplete : Nat := 50 * 1024 * 1024

/-- `CONFIG.OLD_FILE_THRESHOLD_DAYS` (365). -/
def oldThresholdDays : Nat := 365

/-- `processFileForInventory(file, spreadsheet, stats)` of
drive-inventory-complete.js (lines 288-373), restricted to its `stats`
mutations (the sheet append is external output).  Each JS statement
mutates one distinct field of `stats`, so the in-place sequence is
written as one record of independent field updates:
counters, grouped tallies (folder only when the path is non-empty, JS
truthiness), the large-file append/sort-descending/truncate-to-100,
the guarded old-file and shared-file appends (only while the list
holds fewer than 100 entries), and the `(name, size)` duplicate
grouping under the key `` `${name}_${size}` ``. -/
def processFileForInventory (fd : FileData) (s : AggStats) : AggStats :=
  { totalFiles := s.totalFiles + 1
    totalSize := s.totalSize + fd.size
    filesByType := bumpCount s.filesByType fd.ftype
    filesByYear := bumpCountNat s.filesByYear fd.year
    filesByFolder :=
      if fd.folderPath ≠ "" then bumpCount s.filesByFolder fd.folderPath
      else s.filesByFolder
    filesByOwner := bumpCount s.filesByOwner fd.owner
    largeFiles :=
      if fd.size > largeThresholdComplete then
        (sortDescBy (fun e => e.size)
          (s.largeFiles ++ [⟨fd.name, fd.size, fd.folderPath, fd.url⟩])).take 100
      else s.largeFiles
    oldFiles :=
      if fd.ageInDays > oldThresholdDays ∧ s.oldFiles.length < 100 then
        s.oldFiles ++ [⟨fd.name, fd.lastModified, fd.ageInDays, fd.folderPath, fd.url⟩]
      else s.oldFiles
    sharedFiles :=
      if fd.sharingAccess ≠ "Private" ∧ s.sharedFiles.length < 100 then
        s.sharedFiles ++ [⟨fd.name, fd.sharingAccess, fd.sharingPermission, fd.folderPath, fd.url⟩]
      else s.sharedFiles
    duplicateCandidates :=
      addDupCandidate s.duplicateCandidates (fd.name ++ "_" ++ toString fd.size)
        ⟨fd.name, fd.folderPath, fd.size, fd.lastModified, fd.url⟩
    errors := s.errors }

/-- Iterated per-file processing over a list of extracted records. -/
def runInventory (fds : List FileData) (s : AggStats) : AggStats :=
  fds.foldl (fun acc fd => processFileForInventory fd acc) s

/-- `generateDuplicatesReport(spreadsheet, stats)` of
drive-inventory-complete.js (lines 746-772), as the list of exported
groups: keep the `(name, size)` groups with more than one member, sort
descending by group size, truncate to `CONFIG.MAX_DUPLICATE_GROUPS`
(100). -/
def generateDuplicatesReport (s : AggStats) : List (String × List DupEntry) :=
  (sortDescBy (fun g => g.2.length)
    (s.duplicateCandidates.filter (fun g => g.2.length > 1))).take 100

/-! ## Optimized-version aggregation
(drive-inventory-optimized.js, `processFileOptimized`) -/

/-- Does the string-keyed count map hold `key` (JS truthiness of
`stats.filesByType[fileType]`; a stored count is never 0, so presence
is the JS-truthy condition)? -/
def hasKey (m : List (String × Nat)) (key : String) : Bool :=
  match m with
  | [] => false
  | (k, _) :: rest => if key = k then true else hasKey rest key

/-- The aggregate state of the optimized inventory
(`initializeStatsInSheet`), restricted to the fields the claims
concern. -/
structure OptStats where
  totalFiles : Nat
  totalSize : Nat
  filesByType : List (String × Nat)
  filesByYear : List (Nat × Nat)
  largeFiles : List LargeEntry
  oldFiles : List OldEntry
  sharedFiles : List SharedEntry
  errors : Nat
  deriving Repr, DecidableEq

/-- The fresh state produced by `initializeStatsInSheet`. -/
def initOptStats : OptStats :=
  { totalFiles := 0, totalSize := 0, filesByType := [], filesByYear := [],
    largeFiles := [], oldFiles := [], sharedFiles := [], errors := 0 }

/-- `CONFIG.MAX_LARGE_FILES` = `MAX_OLD_FILES` = `MAX_SHARED_FILES`
(100) of the optimized script. -/
def maxOptList : Nat := 100

/-- `processFileOptimized(file, spreadsheet, stats)` of
drive-inventory-optimized.js (lines 172-238), restricted to its
`stats` mutations: type tally only below 50 distinct keys (or for an
existing key), year tally, the large-file push guarded by
`length < MAX_LARGE_FILES` followed by sort-descending and a
conditional truncate, and the guarded old-file and shared-file appends
(note the `PRIVATE` spelling of the sharing guard here). -/
def processFileOptimized (fd : FileData) (s : OptStats) : OptStats :=
  { totalFiles := s.totalFiles + 1
    totalSize := s.totalSize + fd.size
    filesByType :=
      if s.filesByType.length < 50 ∨ hasKey s.filesByType fd.ftype then
        bumpCount s.filesByType fd.ftype
      else s.filesByType
    filesByYear := bumpCountNat s.filesByYear fd.year
    largeFiles :=
      if fd.size > largeThresholdComplete ∧ s.largeFiles.length < maxOptList then
        let sorted := sortDescBy (fun e => e.size)
          (s.largeFiles ++ [⟨fd.name, fd.size, fd.folderPath, fd.url⟩])
        if sorted.length > maxOptList then sorted.take maxOptList else sorted
      else s.largeFiles
    oldFiles :=
      if fd.ageInDays > oldThresholdDays ∧ s.oldFiles.length < maxOptList then
        s.oldFiles ++ [⟨fd.name, fd.lastModified, fd.ageInDays, fd.folderPath, fd.url⟩]
      else s.oldFiles
    sharedFiles :=
      if fd.sharingAccess ≠ "PRIVATE" ∧ s.sharedFiles.length < maxOptList then
        s.sharedFiles ++ [⟨fd.name, fd.sharingAccess, fd.sharingPermission, fd.folderPath, fd.url⟩]
      else s.sharedFiles
    errors := s.errors }

/-- Iterated optimized per-file processing. -/
def runOptInventory (fds : List FileData) (s : OptStats) : OptStats :=
  fds.foldl (fun acc fd => processFileOptimized fd acc) s

/-- The bounded-list invariant of the complete-version aggregate. -/
def AggListInv (s : AggStats) : Prop :=
  s.largeFiles.length ≤ 100 ∧ s.oldFiles.length ≤ 100 ∧
  s.sharedFiles.length ≤ 100 ∧ SortedDescBy (fun e => e.size) s.largeFiles

/-- The bounded-list invariant of the optimized aggregate. -/
def OptListInv (s : OptStats) : Prop :=
  s.largeFiles.length ≤ 100 ∧ s.oldFiles.length ≤ 100 ∧
  s.sharedFiles.length ≤ 100 ∧ SortedDescBy (fun e => e.size) s.largeFiles

/-- A first qualifying old file (age 400 days, above the 365-day
threshold). -/
def oldFileA : FileData :=
  { name := "a", ftype := "Text File", size := 0, year := 2022, ageInDays := 400,
    lastModified := "2024-09-07T00:00:00.000Z", folderPath := "Root", owner := "o@x.com",
    sharingAccess := "Private", sharingPermission := "None", url := "u1" }

/-- A second, *older* qualifying old file (age 500 days) arriving after
the first. -/
def oldFileB : FileData :=
  { oldFileA with
    name := "b", ageInDays := 500,
    lastModified := "2024-05-30T00:00:00.000Z", url := "u2" }

/-! ### Duplicate grouping (C9) -/

/-- First copy of `("a.txt", 100)`. -/
def dupA1 : FileData :=
  { name := "a.txt", ftype := "Text File", size := 100, year := 2024, ageInDays := 0,
    lastModified := "2025-01-01T00:00:00.000Z", folderPath := "Root", owner := "o@x.com",
    sharingAccess := "Private", sharingPermission := "None", url := "ua1" }

/-- Second copy of `("a.txt", 100)` (a distinct file at another URL). -/
def dupA2 : FileData := { dupA1 with url := "ua2" }

/-- The singleton `("b.txt", 50)`. -/
def dupB : FileData := { dupA1 with name := "b.txt", size := 50, url := "ub" }

/-! ### Per-file error containment (C8) -/

/-- One iteration item of the batch loop of `runInventoryBatch`
(lines 159-168): either a file whose extraction and processing succeed,
or a file whose processing throws (`bad`), which the `catch` turns into
`stats.errors++` before the loop continues. -/
inductive FileItem where
  | good (fd : FileData)
  | bad
  deriving Repr, DecidableEq

/-- Is the item a throwing file? -/
def isBadItem : FileItem → Bool
  | FileItem.bad => true
  | FileItem.good _ => false

/-- The `for (const file of files) { try … catch { stats.errors++ } }`
loop of `runInventoryBatch`. -/
def runBatchFiles (items : List FileItem) (s : AggStats) : AggStats :=
  items.foldl
    (fun acc it =>
      match it with
      | FileItem.good fd => processFileForInventory fd acc
      | FileItem.bad => { acc with errors := acc.errors + 1 }) s

/-! ## Page fetch and completion decision (C6)

The remote iterator is modelled as the list of files it has yet to
yield; `hasNext()` is "that list is non-empty" and the continuation
token stands for the remaining list. -/

/-- A raw Drive file handle as seen by the page-fill loops. -/
structure DriveFile where
  name : String
  mimeType : String
  trashed : Bool
  deriving Repr, DecidableEq

/-- Crawl-run status (`updateInventoryStatus` states). -/
inductive RunStatus where
  | RUNNING
  | PAUSED
  | COMPLETE
  | ERROR
  deriving Repr, DecidableEq

/-- `shouldIncludeFile(file)` of drive-inventory-complete.js under its
configuration (`INCLUDE_GOOGLE_FILES = true`, so the MIME exclusion is
dead code; `INCLUDE_TRASHED = false`, so trashed files are excluded). -/
def shouldIncludeFile (f : DriveFile) : Bool :=
  !f.trashed

/-- `CONFIG.BATCH_SIZE` of drive-inventory-complete.js (100). -/
def batchSizeComplete : Nat := 100

/-- `CONFIG.BATCH_SIZE` of the document-inventory script (50). -/
def batchSizeDocs : Nat := 50

/-- The page-fill loop of `getFilesToProcess(continuationToken,
batchSize)` (complete script): consume files while the iterator has
more and fewer than `budget` files passed the inclusion filter;
returns the page and the iterator's remaining stream. -/
def fillPage (budget : Nat) (stream : List DriveFile) :
    List DriveFile × List DriveFile :=
  match stream with
  | [] => ([], [])
  | f :: rest =>
    if budget = 0 then ([], f :: rest)
    else if shouldIncludeFile f then
      let pr := fillPage (budget - 1) rest
      (f :: pr.1, pr.2)
    else fillPage budget rest

/-- The document MIME types accepted by `isDocumentFile`. -/
def documentMimeTypes : List String :=
  ["application/pdf",
   "application/msword",
   "application/vnd.openxmlformats-officedocument.wordprocessingml.document",
   "application/vnd.ms-excel",
   "application/vnd.openxmlformats-officedocument.spreadsheetml.sheet",
   "application/vnd.ms-powerpoint",
   "application/vnd.openxmlformats-officedocument.presentationml.presentation",
   "text/plain",
   "text/csv"]

/-- The document extensions accepted by `isDocumentFile`. -/
def documentExtensions : List String :=
  ["doc", "docx", "pdf", "txt", "xls", "xlsx", "ppt", "pptx", "csv"]

/-- `isDocumentFile(file)` of the document-inventory script: Google
Workspace subtypes document/spreadsheet/presentation/form, a fixed
document MIME-type list, and a file-extension fallback over the
lower-cased name. -/
def isDocumentFile (f : DriveFile) : Bool :=
  if strStartsWith f.mimeType googlePrefix then
    ["document", "spreadsheet", "presentation", "form"].contains
      ⟨f.mimeType.data.drop googlePrefix.length⟩
  else if documentMimeTypes.contains f.mimeType then true
  else documentExtensions.contains (lastSeg '.' (strLower f.name))

/-- The page-fill loop of `getDocumentFilesToProcess(continuationToken,
batchSize)` (document script, lines 819-851): as `fillPage`, but
additionally stops after `check` files have been examined
(`maxCheck = batchSize * 10`). -/
def fillPageDoc (budget check : Nat) (stream : List DriveFile) :
    List DriveFile × List DriveFile :=
  match stream with
  | [] => ([], [])
  | f :: rest =>
    if budget = 0 ∨ check = 0 then ([], f :: rest)
    else if isDocumentFile f then
      let pr := fillPageDoc (budget - 1) (check - 1) rest
      (f :: pr.1, pr.2)
    else fillPageDoc budget (check - 1) rest

/-- The outcome of one batch's page handling: the final recorded
status, the fetched page, the iterator remainder, and whether a
continuation cursor was persisted. -/
structure BatchPageResult where
  status : RunStatus
  page : List DriveFile
  rest : List DriveFile
  cursorSaved : Bool
  deriving Repr, DecidableEq

/-- The completion decision of `runInventoryBatch` (complete script,
lines 136-201): an empty page finalizes and clears (COMPLETE);
otherwise, when the iterator still has files the cursor is persisted
and the run continues (RUNNING), else the run finalizes (COMPLETE). -/
def runInventoryBatchPage (stream : List DriveFile) : BatchPageResult :=
  let pr := fillPage batchSizeComplete stream
  if pr.1 = [] then ⟨RunStatus.COMPLETE, pr.1, pr.2, false⟩
  else if pr.2 ≠ [] then ⟨RunStatus.RUNNING, pr.1, pr.2, true⟩
  else ⟨RunStatus.COMPLETE, pr.1, pr.2, false⟩

/-- The identical completion decision of `runDocumentInventoryBatch`
(document script), over its `maxCheck`-bounded page fill. -/
def runDocumentBatchPage (stream : List DriveFile) : BatchPageResult :=
  let pr := fillPageDoc batchSizeDocs (batchSizeDocs * 10) stream
  if pr.1 = [] then ⟨RunStatus.COMPLETE, pr.1, pr.2, false⟩
  else if pr.2 ≠ [] then ⟨RunStatus.RUNNING, pr.1, pr.2, true⟩
  else ⟨RunStatus.COMPLETE, pr.1, pr.2, false⟩

/-- The ten document files at the head of the sparse stream. -/
def docPdf : DriveFile := ⟨"a.pdf", "application/pdf", false⟩

/-- A non-document filler file. -/
def binFile : DriveFile := ⟨"x.bin", "application/x-thing", false⟩

/-- A stream whose first `maxCheck = 500` examined files contain only
10 documents, with one further file beyond the examination bound. -/
def sparseDocStream : List DriveFile :=
  List.replicate 10 docPdf ++ List.replicate 491 binFile

/-! ## Checkpoint property store and save failure (C7) -/

/-- The script-properties checkpoint of the complete script: the
continuation token and the JSON-serialized stats (held here in parsed
form; `JSON.parse(getProperty(…) || '{}')` then `initializeStats`
yields the stored state, or the fresh state when absent). -/
structure PropStore where
  continuationToken : Option String
  inventoryStats : Option AggStats
  deriving Repr, DecidableEq

/-- The observable outcome of one `runInventoryBatch` call: the
property store afterwards, the last status written to the overview
sheet, and whether the call terminated by an uncaught exception. -/
structure BatchSaveResult where
  store : PropStore
  shownStatus : RunStatus
  threw : Bool
  deriving Repr, DecidableEq

/-- `runInventoryBatch` of drive-inventory-complete.js (lines
115-201), restricted to its property-store and status effects and
parametrized by the platform's save behaviour: `quotaFails` models
`PropertiesService.setProperty` throwing on an over-quota serialized
value, in which case the property is left unwritten and the exception
propagates out of `runInventoryBatch` uncaught (there is no
try/catch around the save).  The status written at batch start is
`RUNNING`; an empty page finalizes, clears the store and writes
`COMPLETE`; otherwise the stats are saved (lines 170-183) — the one
failure point — then the cursor is persisted (more files) or the store
is cleared and `COMPLETE` written (iterator exhausted). -/
def runInventoryBatchSave (quotaFails : AggStats → Bool) (store : PropStore)
    (page : List FileItem) (hasMore : Bool) (nextToken : String) : BatchSaveResult :=
  let stats := store.inventoryStats.getD initStats
  if page = [] then
    { store := ⟨none, none⟩, shownStatus := RunStatus.COMPLETE, threw := false }
  else
    let stats1 := runBatchFiles page stats
    if quotaFails stats1 then
      { store := store, shownStatus := RunStatus.RUNNING, threw := true }
    else if hasMore then
      { store := ⟨some nextToken, some stats1⟩, shownStatus := RunStatus.RUNNING, threw := false }
    else
      { store := ⟨none, none⟩, shownStatus := RunStatus.COMPLETE, threw := false }

/-- A previously persisted (small) checkpoint. -/
def priorStore : PropStore :=
  ⟨some "T0", some (processFileForInventory dupA1 initStats)⟩

/-! ## Code-files inventory and checkpoint resumption (C1)
(code-files-inventory.js) -/

/-- The JS value stored at `repositories[project].languages`: a real
`Set` while the run stays in memory, or a plain object after a
checkpoint round trip — `JSON.stringify(new Set(…))` serializes a Set
to `{}` (a Set has no enumerable own properties) and `JSON.parse`
revives it as a plain object, on which `.add` is not a function. -/
inductive LangsVal where
  | jsSet (elems : List String)
  | plainObj
  deriving Repr, DecidableEq

/-- JS `a < b` on strings: lexicographic comparison by code unit
(ASCII here), used for the ISO-timestamp comparison
`fileData.lastModified > …lastActivity`. -/
def charListLt : List Char → List Char → Bool
  | [], [] => false
  | [], _ :: _ => true
  | _ :: _, [] => false
  | a :: as, b :: bs =>
    if a < b then true else if b < a then false else charListLt as bs

/-- JS string `<` on Lean strings. -/
def strLtJs (a b : String) : Bool := charListLt a.data b.data

/-- `set.add(x)`: insert if absent. -/
def jsSetAdd (elems : List String) (x : String) : List String :=
  if elems.contains x then elems else elems ++ [x]

/-- One `stats.repositories[project]` record of `processCodeFile`. -/
structure RepoInfo where
  fileCount : Nat
  languages : LangsVal
  hasConfig : Bool
  lastActivity : String
  deriving Repr, DecidableEq

/-- Lookup in the insertion-ordered `repositories` object. -/
def rlookup (m : List (String × RepoInfo)) (key : String) : Option RepoInfo :=
  match m with
  | [] => none
  | (k, r) :: rest => if key = k then some r else rlookup rest key

/-- In-place update of one `repositories` entry. -/
def rupdate (m : List (String × RepoInfo)) (key : String)
    (f : RepoInfo → RepoInfo) : List (String × RepoInfo) :=
  match m with
  | [] => []
  | (k, r) :: rest =>
    if key = k then (k, f r) :: rest else (k, r) :: rupdate rest key f

/-- An entry of `stats.largeFiles` (code script). -/
structure CodeLargeEntry where
  name : String
  size : Nat
  language : String
  category : String
  path : String
  url : String
  lastModified : String
  deriving Repr, DecidableEq

/-- An entry of `stats.oldFiles` (code script). -/
structure CodeOldEntry where
  name : String
  language : String
  lastModified : String
  ageInDays : Nat
  path : String
  url : String
  deriving Repr, DecidableEq

/-- The fields of the record built by `extractCodeFileData` that
`processCodeFile` reads. -/
structure CodeFileData where
  name : String
  language : String
  category : String
  project : String
  isInRepository : Bool
  size : Nat
  ageInDays : Nat
  lastModified : String
  owner : String
  year : Nat
  folderPath : String
  url : String
  deriving Repr, DecidableEq

/-- The aggregate state of the code-files inventory
(`initializeCodeStats`), restricted to the fields the claims concern. -/
structure CodeStats where
  totalFiles : Nat
  totalSize : Nat
  byLanguage : List (String × Nat)
  byCategory : List (String × Nat)
  byProject : List (String × Nat)
  byOwner : List (String × Nat)
  byYear : List (Nat × Nat)
  largeFiles : List CodeLargeEntry
  oldFiles : List CodeOldEntry
  repositories : List (String × RepoInfo)
  errors : Nat
  deriving Repr, DecidableEq

/-- The fresh state produced by `initializeCodeStats({})`. -/
def initCodeStats : CodeStats :=
  { totalFiles := 0, totalSize := 0, byLanguage := [], byCategory := [],
    byProject := [], byOwner := [], byYear := [], largeFiles := [],
    oldFiles := [], repositories := [], errors := 0 }

/-- The repository-tracking block of `processCodeFile` (lines
258-275): create the entry with a fresh `Set` when absent, increment
`fileCount`, then call `languages.add(language)` — which throws a
`TypeError` when `languages` is a JSON-revived plain object, leaving
the mutations made so far (including the `fileCount` increment) in
place — then record configuration presence and the latest activity
timestamp.  Returns the updated stats and whether the block threw. -/
def repoStep (fd : CodeFileData) (s : CodeStats) : CodeStats × Bool :=
  let repos0 :=
    match rlookup s.repositories fd.project with
    | none => s.repositories ++ [(fd.project, ⟨0, LangsVal.jsSet [], false, fd.lastModified⟩)]
    | some _ => s.repositories
  let repos1 := rupdate repos0 fd.project (fun r => { r with fileCount := r.fileCount + 1 })
  match rlookup repos1 fd.project with
  | none => ({ s with repositories := repos1 }, false)
  | some r =>
    match r.languages with
    | LangsVal.plainObj => ({ s with repositories := repos1 }, true)
    | LangsVal.jsSet ls =>
      let repos2 := rupdate repos1 fd.project
        (fun r0 => { r0 with languages := LangsVal.jsSet (jsSetAdd ls fd.language) })
      let repos3 :=
        if fd.category = "Configuration" then
          rupdate repos2 fd.project (fun r0 => { r0 with hasConfig := true })
        else repos2
      let repos4 := rupdate repos3 fd.project
        (fun r0 =>
          if strLtJs r0.lastActivity fd.lastModified then { r0 with lastActivity := fd.lastModified }
          else r0)
      ({ s with repositories := repos4 }, false)

/-- The trailing statements of `processCodeFile` after the repository
block: owner and year tallies, the large-file
append/sort-descending/truncate-to-50 (5 MB threshold), and the
guarded old-file append (cap 50). -/
def finishCodeFile (fd : CodeFileData) (s : CodeStats) : CodeStats :=
  let s1 : CodeStats := { s with
    byOwner := bumpCount s.byOwner fd.owner
    byYear := bumpCountNat s.byYear fd.year }
  let s2 : CodeStats :=
    if fd.size > 5 * 1024 * 1024 then
      { s1 with largeFiles :=
          (sortDescBy (fun e => e.size)
            (s1.largeFiles ++ [⟨fd.name, fd.size, fd.language, fd.category,
              fd.folderPath, fd.url, fd.lastModified⟩])).take 50 }
    else s1
  if fd.ageInDays > oldThresholdDays ∧ s2.oldFiles.length < 50 then
    { s2 with oldFiles :=
        s2.oldFiles ++ [⟨fd.name, fd.language, fd.lastModified, fd.ageInDays,
          fd.folderPath, fd.url⟩] }
  else s2

/-- `processCodeFile(file, spreadsheet, stats)` of
code-files-inventory.js (lines 238-323), restricted to its `stats`
mutations, with JS exception semantics: mutations made before the
`languages.add` TypeError persist, the statements after it do not run,
and the thrown flag is reported to the caller's `catch`. -/
def processCodeFile (fd : CodeFileData) (s : CodeStats) : CodeStats × Bool :=
  let s1 := { s with
    totalFiles := s.totalFiles + 1
    totalSize := s.totalSize + fd.size
    byLanguage := bumpCount s.byLanguage fd.language
    byCategory := bumpCount s.byCategory fd.category }
  if fd.project ≠ "" then
    let s2 := { s1 with byProject := bumpCount s1.byProject fd.project }
    let pr := if fd.isInRepository then repoStep fd s2 else (s2, false)
    if pr.2 then (pr.1, true) else (finishCodeFile fd pr.1, false)
  else (finishCodeFile fd s1, false)

/-- The per-batch loop of `runCodeInventoryBatch` (lines 127-138):
a throwing `processCodeFile` is caught, `stats.errors` is incremented
and the loop continues. -/
def runCodeFiles (fds : List CodeFileData) (s : CodeStats) : CodeStats :=
  fds.foldl
    (fun acc fd =>
      let pr := processCodeFile fd acc
      if pr.2 then { pr.1 with errors := pr.1.errors + 1 } else pr.1) s

/-- The checkpoint round trip between batches:
`JSON.parse(JSON.stringify(stats))` followed by `initializeCodeStats`.
Counters, strings, arrays and plain objects survive unchanged, but
every `languages` Set serializes to `{}` and is revived as a plain
object. -/
def jsonRoundTripCode (s : CodeStats) : CodeStats :=
  { s with repositories :=
      s.repositories.map (fun kr => (kr.1, { kr.2 with languages := LangsVal.plainObj })) }

/-- Running the crawl as interrupted batches: the aggregate state is
serialized into the checkpoint store after each batch and reloaded
before the next. -/
def runCodeBatches : List (List CodeFileData) → CodeStats → CodeStats
  | [], s => s
  | [b] , s => runCodeFiles b s
  | b :: rest, s => runCodeBatches rest (jsonRoundTripCode (runCodeFiles b s))

/-- A repository JavaScript file, the first file of project
`ProjectX`. -/
def jsAppFile : CodeFileData :=
  { name := "app.js", language := "JavaScript", category := "Source",
    project := "ProjectX", isInRepository := true, size := 10, ageInDays := 0,
    lastModified := "2024-01-01T00:00:00.000Z", owner := "dev@corp.com",
    year := 2024, folderPath := "ProjectX", url := "u1" }

/-- A second file of the same repository project, processed later. -/
def pyToolFile : CodeFileData :=
  { jsAppFile with
    name := "tool.py", language := "Python",
    lastModified := "2024-02-01T00:00:00.000Z", url := "u2" }

/-! ## Theorems -/

theorem mem_insertDescBy {α : Type} (key : α → Nat) (x b : α) :
    ∀ l : List α, b ∈ insertDescBy key x l ↔ b = x ∨ b ∈ l := by
  intro l
  induction l with
  | nil => simp [insertDescBy]
  | cons y ys ih =>
    by_cases hxy : key y < key x
    · simp [insertDescBy, if_pos hxy] <;> tauto
    · simp [insertDescBy, if_neg hxy, ih] <;> tauto

theorem insertDescBy_sorted {α : Type} (key : α → Nat) (x : α) (l : List α)
    (h : SortedDescBy key l) : SortedDescBy key (insertDescBy key x l) := by
  induction l with
  | nil => simp [insertDescBy, SortedDescBy]
  | cons y ys ih =>
    rcases h with _ | ⟨hy, hys⟩
    by_cases hxy : key y < key x
    · simp only [insertDescBy, if_pos hxy]
      refine List.Pairwise.cons ?_ (List.Pairwise.cons hy hys)
      intro b hb
      rcases List.mem_cons.mp hb with rfl | hb'
      · omega
      · have := hy b hb'; omega
    · simp only [insertDescBy, if_neg hxy]
      refine List.Pairwise.cons ?_ (ih hys)
      intro b hb
      rcases (mem_insertDescBy key x b ys).mp hb with rfl | hb'
      · omega
      · exact hy b hb'

theorem sortDescBy_sorted {α : Type} (key : α → Nat) (l : List α) :
    SortedDescBy key (sortDescBy key l) := by
  induction l with
  | nil => simp [sortDescBy, SortedDescBy]
  | cons x xs ih => exact insertDescBy_sorted key x _ ih

theorem sortedDescBy_take {α : Type} (key : α → Nat) (l : List α) (n : Nat)
    (h : SortedDescBy key l) : SortedDescBy key (l.take n) :=
  List.Pairwise.sublist (List.take_sublist n l) h

/-! ### Totality facts about the type classifiers -/

theorem alookup_snd_ne (key : String) (tbl : List (String × String))
    (hp : ∀ p ∈ tbl, p.2 ≠ "") :
    ∀ v, alookup key tbl = some v → v ≠ "" := by
  induction tbl with
  | nil => intro v h; simp [alookup] at h
  | cons p rest ih =>
    intro v h
    by_cases hk : key = p.1
    · simp [alookup, hk] at h
      exact h ▸ hp p (by simp)
    · simp [alookup, hk] at h
      exact ih (fun q hq => hp q (List.mem_cons_of_mem _ hq)) v h

theorem strUpper_eq_empty_iff (s : String) : strUpper s = "" ↔ s = "" := by
  constructor
  · intro h
    have := congrArg String.length h
    cases s with
    | mk data =>
      cases data with
      | nil => rfl
      | cons c cs => simp [strUpper, String.length] at this
  · intro h; subst h; rfl

theorem google_label_ne_empty (x : String) : ("Google " ++ x) ≠ "" := by
  intro h
  have hlen := congrArg String.length h
  have h7 : ("Google " : String).length = 7 := rfl
  have h0 : ("" : String).length = 0 := rfl
  rw [String.length_append, h7, h0] at hlen
  omega

theorem getFileType_ne_empty (name mime : String) :
    getFileType name mime ≠ "" := by
  by_cases hg : strStartsWith mime googlePrefix
  · simp only [getFileType, hg, if_true]
    exact google_label_ne_empty _
  · simp only [getFileType, hg, Bool.false_eq_true, if_false]
    cases hlk : alookup (extOf name) typeMapComplete with
    | some v =>
      simp only [hlk]
      exact alookup_snd_ne _ _ (by decide) v hlk
    | none =>
      simp only [hlk]
      split
      · decide
      · assumption

theorem getFileTypeSimple_ne_empty (name mime : String) :
    getFileTypeSimple name mime ≠ "" := by
  by_cases hg : strStartsWith mime googlePrefix
  · simp only [getFileTypeSimple, hg, if_true]
    exact google_label_ne_empty _
  · simp only [getFileTypeSimple, hg, Bool.false_eq_true, if_false]
    cases hlk : alookup (extOf name) typeMapSimple with
    | some v =>
      simp only [hlk]
      exact alookup_snd_ne _ _ (by decide) v hlk
    | none =>
      simp only [hlk]
      split
      · decide
      · assumption

/-- C10: for every name/mimeType string pair — including the empty string
and names with no extension — both type classifiers return a non-empty
label (the Lean functions are total, so no exception is possible); when
the extension is not in the static table the label is the upper-cased
extension, and `"Unknown"` exactly when the extension is empty. -/
theorem getFileType_totality (name mime : String) :
    getFileType name mime ≠ "" ∧ getFileTypeSimple name mime ≠ "" ∧
    (strStartsWith mime googlePrefix = false →
      alookup (extOf name) typeMapComplete = none →
      getFileType name mime =
        (if extOf name = "" then "Unknown" else strUpper (extOf name))) := by
  refine ⟨getFileType_ne_empty name mime, getFileTypeSimple_ne_empty name mime, ?_⟩
  intro hg hlk
  by_cases he : extOf name = ""
  · have hlk0 : alookup "" typeMapComplete = none := by decide
    simp [getFileType, hg, hlk, he, hlk0, strUpper]
  · have hu : strUpper (extOf name) ≠ "" :=
      fun h => he ((strUpper_eq_empty_iff _).mp h)
    simp [getFileType, hg, hlk, he, hu]

/-- Witness for C10 at a concrete input: `"backup.xyz"` with a
non-Google MIME type has the unmapped extension `"xyz"` and classifies
to its upper-cased extension `"XYZ"`. -/
theorem getFileType_totality_witness :
    getFileType "backup.xyz" "application/octet-stream" = "XYZ" := by
  have h := (getFileType_totality "backup.xyz" "application/octet-stream").2.2
    (by decide) (by decide)
  simpa using h

/-! ### Risk-score bounds and the high-risk list -/

theorem typePoints_le (fd : AuditFile) : typePoints fd ≤ 10 := by
  unfold typePoints; split_ifs <;> omega

theorem extDomainPoints_le (fd : AuditFile) : extDomainPoints fd ≤ 15 := by
  unfold extDomainPoints; split_ifs <;> omega

theorem assessSecurityRisk_le_50 (fd : AuditFile) :
    assessSecurityRisk fd ≤ 50 := by
  have h1 := typePoints_le fd
  have h2 := extDomainPoints_le fd
  unfold assessSecurityRisk
  omega

theorem processSharedFile_highRisk (fd : AuditFile) (s : SharedStats) :
    (processSharedFile fd s).highRiskFiles = s.highRiskFiles := by
  have h := assessSecurityRisk_le_50 fd
  simp only [processSharedFile, categorizeSharing]
  rw [if_neg (by omega)]
  split_ifs <;> rfl

theorem runSharedAudit_highRisk (fds : List AuditFile) :
    ∀ s : SharedStats, (runSharedAudit fds s).highRiskFiles = s.highRiskFiles := by
  induction fds with
  | nil => intro s; rfl
  | cons fd rest ih =>
    intro s
    simp only [runSharedAudit, List.foldl_cons] at *
    rw [ih (processSharedFile fd s), processSharedFile_highRisk]

/-- C5: `assessSecurityRisk` is bounded by 50 for every input — the
mid-computation `Math.min(riskScore, 25)` caps the accumulated
sharing/permission/keyword contributions at 25, after which at most
10 file-type points and 15 external-domain points are added — so the
high-risk condition `riskLevel >= 70` of `processSharedFile` is
unsatisfiable and, starting from the fresh audit state, the
`highRiskFiles` list stays empty over every possible run. -/
theorem assessSecurityRisk_bounded_highRisk_empty :
    (∀ fd : AuditFile, assessSecurityRisk fd ≤ 50) ∧
    (∀ fd : AuditFile, ¬ (assessSecurityRisk fd ≥ 70)) ∧
    (∀ fds : List AuditFile,
      (runSharedAudit fds initSharedStats).highRiskFiles = []) := by
  refine ⟨assessSecurityRisk_le_50, ?_, ?_⟩
  · intro fd h
    have := assessSecurityRisk_le_50 fd
    omega
  · intro fds
    rw [runSharedAudit_highRisk]
    rfl

/-- C3: the `Math.min(riskScore, 25)` in `assessSecurityRisk` caps the
whole accumulated sharing + permission + keyword total, not only the
keyword contribution: on a public, editable, sensitive-typed file with
zero keyword matches the non-keyword factors alone are worth
40 + 20 + 10 = 70 points, yet the function returns 35 because the 60
accumulated sharing/permission points are truncated to 25 before the
file-type points are added. -/
theorem assessSecurityRisk_caps_nonkeyword_factors :
    assessSecurityRisk pubEditPdf = 35 ∧
    matchedKeywordCount pubEditPdf = 0 ∧
    sharingPoints pubEditPdf + permissionPoints pubEditPdf + typePoints pubEditPdf
      + extDomainPoints pubEditPdf = 70 := by
  refine ⟨by decide, by decide, by decide⟩

/-- C4 counterexample: two records differing only in the
sharing-exposure factor, where the record at the *higher* exposure
level of the spec's ordering (`domain`, above `external`) receives the
*smaller* risk score: the code awards 20 points to domain sharing but
25 to external-only sharing. -/
theorem riskScore_not_monotonic_in_exposure :
    assessSecurityRisk domainSharedDoc < assessSecurityRisk externalOnlyDoc := by
  decide

theorem agePoints_mono (fd : CleanupFile) (a a' : Nat) (h : a ≤ a') :
    agePoints { fd with ageInDays := a } ≤ agePoints { fd with ageInDays := a' } := by
  unfold agePoints
  simp only
  split_ifs <;> omega

theorem sizePoints_mono (fd : CleanupFile) (sz sz' : Nat) (h : sz ≤ sz') :
    sizePoints { fd with size := sz } ≤ sizePoints { fd with size := sz' } := by
  unfold sizePoints
  simp only
  split_ifs <;> omega

theorem sharingPoints_public_mono (fd : AuditFile) :
    sharingPoints { fd with isPublic := false } ≤ sharingPoints { fd with isPublic := true } := by
  unfold sharingPoints
  simp only
  split_ifs <;> omega

theorem permissionPoints_public_mono (fd : AuditFile) :
    permissionPoints { fd with isPublic := false } ≤ permissionPoints { fd with isPublic := true } := by
  by_cases hp : fd.sharingPermission = "EDIT" <;>
    simp [permissionPoints, hp]

theorem sharingPoints_domain_mono (fd : AuditFile) (h : fd.externalDomains = []) :
    sharingPoints { fd with isDomainShared := false } ≤ sharingPoints { fd with isDomainShared := true } := by
  by_cases hp : fd.isPublic <;> simp [sharingPoints, hp, h]

theorem sharingPoints_ext_mono (fd : AuditFile) (ds ds' : List String)
    (h : ds.length ≤ ds'.length) :
    sharingPoints { fd with externalDomains := ds } ≤ sharingPoints { fd with externalDomains := ds' } := by
  unfold sharingPoints
  simp only
  split_ifs <;> omega

theorem extDomainPoints_ext_mono (fd : AuditFile) (ds ds' : List String)
    (h : ds.length ≤ ds'.length) :
    extDomainPoints { fd with externalDomains := ds } ≤ extDomainPoints { fd with externalDomains := ds' } := by
  unfold extDomainPoints
  simp only
  split_ifs <;> omega

theorem permissionPoints_eq_zero (fd : AuditFile) (h : fd.sharingPermission ≠ "EDIT") :
    permissionPoints fd = 0 := by
  simp [permissionPoints, h]

/-- C4amended: every numeric score is clamped to `[0, 100]`
(non-negativity holds because the scores are `Nat`-valued sums of
non-negative addends), the cleanup score is monotonic non-decreasing in
the age and size factors, and the security-risk score is monotonic
non-decreasing in the public flag, in the domain-shared flag when no
external collaborator domain exists, in the number of external
collaborator domains, and in granting `EDIT` permission — i.e.
monotonic in each factor under the point ordering the code actually
implements (`public (40) > external (25) > domain (20) > private (0)`),
which transposes the spec's `domain`/`external` exposure ordering. -/
theorem scores_clamped_and_factor_monotonic :
    (∀ fd : CleanupFile, calculateCleanupScore fd ≤ 100) ∧
    (∀ fd : AuditFile, assessSecurityRisk fd ≤ 100) ∧
    (∀ (fd : CleanupFile) (a a' : Nat), a ≤ a' →
      calculateCleanupScore { fd with ageInDays := a }
        ≤ calculateCleanupScore { fd with ageInDays := a' }) ∧
    (∀ (fd : CleanupFile) (sz sz' : Nat), sz ≤ sz' →
      calculateCleanupScore { fd with size := sz }
        ≤ calculateCleanupScore { fd with size := sz' }) ∧
    (∀ fd : AuditFile,
      assessSecurityRisk { fd with isPublic := false }
        ≤ assessSecurityRisk { fd with isPublic := true }) ∧
    (∀ fd : AuditFile, fd.externalDomains = [] →
      assessSecurityRisk { fd with isDomainShared := false }
        ≤ assessSecurityRisk { fd with isDomainShared := true }) ∧
    (∀ (fd : AuditFile) (ds ds' : List String), ds.length ≤ ds'.length →
      assessSecurityRisk { fd with externalDomains := ds }
        ≤ assessSecurityRisk { fd with externalDomains := ds' }) ∧
    (∀ fd : AuditFile, fd.sharingPermission ≠ "EDIT" →
      assessSecurityRisk fd ≤ assessSecurityRisk { fd with sharingPermission := "EDIT" }) := by
  refine ⟨?_, ?_, ?_, ?_, ?_, ?_, ?_, ?_⟩
  · intro fd
    unfold calculateCleanupScore
    omega
  · intro fd
    unfold assessSecurityRisk
    omega
  · intro fd a a' h
    have h1 := agePoints_mono fd a a' h
    have e1 : sizePoints { fd with ageInDays := a } = sizePoints fd := rfl
    have e1' : sizePoints { fd with ageInDays := a' } = sizePoints fd := rfl
    have e2 : cleanupTypePoints { fd with ageInDays := a } = cleanupTypePoints fd := rfl
    have e2' : cleanupTypePoints { fd with ageInDays := a' } = cleanupTypePoints fd := rfl
    have e3 : cleanupSharePoints { fd with ageInDays := a } = cleanupSharePoints fd := rfl
    have e3' : cleanupSharePoints { fd with ageInDays := a' } = cleanupSharePoints fd := rfl
    unfold calculateCleanupScore
    omega
  · intro fd sz sz' h
    have h1 := sizePoints_mono fd sz sz' h
    have e1 : agePoints { fd with size := sz } = agePoints fd := rfl
    have e1' : agePoints { fd with size := sz' } = agePoints fd := rfl
    have e2 : cleanupTypePoints { fd with size := sz } = cleanupTypePoints fd := rfl
    have e2' : cleanupTypePoints { fd with size := sz' } = cleanupTypePoints fd := rfl
    have e3 : cleanupSharePoints { fd with size := sz } = cleanupSharePoints fd := rfl
    have e3' : cleanupSharePoints { fd with size := sz' } = cleanupSharePoints fd := rfl
    unfold calculateCleanupScore
    omega
  · intro fd
    have h1 := sharingPoints_public_mono fd
    have h2 := permissionPoints_public_mono fd
    have e1 : matchedKeywordCount { fd with isPublic := false } = matchedKeywordCount fd := rfl
    have e1' : matchedKeywordCount { fd with isPublic := true } = matchedKeywordCount fd := rfl
    have e2 : typePoints { fd with isPublic := false } = typePoints fd := rfl
    have e2' : typePoints { fd with isPublic := true } = typePoints fd := rfl
    have e3 : extDomainPoints { fd with isPublic := false } = extDomainPoints fd := rfl
    have e3' : extDomainPoints { fd with isPublic := true } = extDomainPoints fd := rfl
    unfold assessSecurityRisk
    omega
  · intro fd h
    have h1 := sharingPoints_domain_mono fd h
    have e0 : permissionPoints { fd with isDomainShared := false } = permissionPoints fd := rfl
    have e0' : permissionPoints { fd with isDomainShared := true } = permissionPoints fd := rfl
    have e1 : matchedKeywordCount { fd with isDomainShared := false } = matchedKeywordCount fd := rfl
    have e1' : matchedKeywordCount { fd with isDomainShared := true } = matchedKeywordCount fd := rfl
    have e2 : typePoints { fd with isDomainShared := false } = typePoints fd := rfl
    have e2' : typePoints { fd with isDomainShared := true } = typePoints fd := rfl
    have e3 : extDomainPoints { fd with isDomainShared := false } = extDomainPoints fd := rfl
    have e3' : extDomainPoints { fd with isDomainShared := true } = extDomainPoints fd := rfl
    unfold assessSecurityRisk
    omega
  · intro fd ds ds' h
    have h1 := sharingPoints_ext_mono fd ds ds' h
    have h2 := extDomainPoints_ext_mono fd ds ds' h
    have e0 : permissionPoints { fd with externalDomains := ds } = permissionPoints fd := rfl
    have e0' : permissionPoints { fd with externalDomains := ds' } = permissionPoints fd := rfl
    have e1 : matchedKeywordCount { fd with externalDomains := ds } = matchedKeywordCount fd := rfl
    have e1' : matchedKeywordCount { fd with externalDomains := ds' } = matchedKeywordCount fd := rfl
    have e2 : typePoints { fd with externalDomains := ds } = typePoints fd := rfl
    have e2' : typePoints { fd with externalDomains := ds' } = typePoints fd := rfl
    unfold assessSecurityRisk
    omega
  · intro fd h
    have h1 := permissionPoints_eq_zero fd h
    have e0 : sharingPoints { fd with sharingPermission := "EDIT" } = sharingPoints fd := rfl
    have e1 : matchedKeywordCount { fd with sharingPermission := "EDIT" } = matchedKeywordCount fd := rfl
    have e2 : typePoints { fd with sharingPermission := "EDIT" } = typePoints fd := rfl
    have e3 : extDomainPoints { fd with sharingPermission := "EDIT" } = extDomainPoints fd := rfl
    unfold assessSecurityRisk
    omega

/-- Witness for C4amended at concrete inputs: a 100-day-old file versus
the same file at 400 days, instantiating the age-monotonicity
conjunct. -/
theorem scores_clamped_and_factor_monotonic_witness :
    (100 : Nat) ≤ 400 ∧
    calculateCleanupScore
        { (⟨"w", "ZIP", 0, 0, "Private"⟩ : CleanupFile) with ageInDays := 100 }
      ≤ calculateCleanupScore
        { (⟨"w", "ZIP", 0, 0, "Private"⟩ : CleanupFile) with ageInDays := 400 } :=
  ⟨by decide,
    scores_clamped_and_factor_monotonic.2.2.1
      ⟨"w", "ZIP", 0, 0, "Private"⟩ 100 400 (by decide)⟩

/-! ### Bounded-list invariants (C2) -/

theorem length_insertDescBy {α : Type} (key : α → Nat) (x : α) :
    ∀ l : List α, (insertDescBy key x l).length = l.length + 1 := by
  intro l
  induction l with
  | nil => rfl
  | cons y ys ih =>
    by_cases hxy : key y < key x
    · simp [insertDescBy, hxy]
    · simp [insertDescBy, hxy, ih]

theorem length_sortDescBy {α : Type} (key : α → Nat) :
    ∀ l : List α, (sortDescBy key l).length = l.length := by
  intro l
  induction l with
  | nil => rfl
  | cons x xs ih => simp [sortDescBy, length_insertDescBy, ih]

theorem processFileForInventory_inv (fd : FileData) (s : AggStats)
    (h : AggListInv s) : AggListInv (processFileForInventory fd s) := by
  obtain ⟨h1, h2, h3, h4⟩ := h
  refine ⟨?_, ?_, ?_, ?_⟩
  · simp only [processFileForInventory]
    split
    · simpa using Nat.min_le_left 100 _
    · exact h1
  · simp only [processFileForInventory]
    split
    · rename_i hcond
      simp
      omega
    · exact h2
  · simp only [processFileForInventory]
    split
    · rename_i hcond
      simp
      omega
    · exact h3
  · simp only [processFileForInventory]
    split
    · exact sortedDescBy_take _ _ _ (sortDescBy_sorted _ _)
    · exact h4

theorem runInventory_inv (fds : List FileData) :
    ∀ s : AggStats, AggListInv s → AggListInv (runInventory fds s) := by
  induction fds with
  | nil => intro s h; exact h
  | cons fd rest ih =>
    intro s h
    exact ih (processFileForInventory fd s) (processFileForInventory_inv fd s h)

theorem processFileOptimized_inv (fd : FileData) (s : OptStats)
    (h : OptListInv s) : OptListInv (processFileOptimized fd s) := by
  obtain ⟨h1, h2, h3, h4⟩ := h
  refine ⟨?_, ?_, ?_, ?_⟩
  · simp only [processFileOptimized, maxOptList]
    split
    · rename_i hcond
      split
      · simpa using Nat.min_le_left 100 _
      · rename_i hlen
        rw [length_sortDescBy] at hlen ⊢
        simp at hlen ⊢
        omega
    · exact h1
  · simp only [processFileOptimized, maxOptList]
    split
    · rename_i hcond
      simp
      omega
    · exact h2
  · simp only [processFileOptimized, maxOptList]
    split
    · rename_i hcond
      simp
      omega
    · exact h3
  · simp only [processFileOptimized, maxOptList]
    split
    · split
      · exact sortedDescBy_take _ _ _ (sortDescBy_sorted _ _)
      · exact sortDescBy_sorted _ _
    · exact h4

theorem runOptInventory_inv (fds : List FileData) :
    ∀ s : OptStats, OptListInv s → OptListInv (runOptInventory fds s) := by
  induction fds with
  | nil => intro s h; exact h
  | cons fd rest ih =>
    intro s h
    exact ih (processFileOptimized fd s) (processFileOptimized_inv fd s h)

/-- C2 counterexample: after two `processFileForInventory` updates the
`oldFiles` list holds the 400-day file before the 500-day file — the
list is filled in arrival order and never sorted, so it is not sorted
descending by its ranking key (age). -/
theorem oldFiles_not_sorted_by_age :
    ¬ SortedDescBy (fun e => e.ageInDays)
      ((runInventory [oldFileA, oldFileB] initStats).oldFiles) := by
  decide

/-- C2amended: after any number of per-file updates every bounded list
has length at most its cap of 100; the complete-version `largeFiles`
list and the audit `highRiskFiles` list follow the
append/sort-descending/truncate discipline and are always sorted
descending by their ranking key (size, risk score); the `oldFiles` and
`sharedFiles` lists are instead capped by a guarded append that keeps
the first 100 qualifying entries in arrival order without sorting; and
the optimized `largeFiles` list stays sorted but stops inserting
entirely once it holds 100 entries (it keeps the first 100 large
files, not the 100 largest). -/
theorem boundedTopK_amended :
    (∀ fds : List FileData,
      (runInventory fds initStats).largeFiles.length ≤ 100 ∧
      (runInventory fds initStats).oldFiles.length ≤ 100 ∧
      (runInventory fds initStats).sharedFiles.length ≤ 100 ∧
      SortedDescBy (fun e => e.size) (runInventory fds initStats).largeFiles) ∧
    (∀ fds : List AuditFile,
      (runSharedAudit fds initSharedStats).highRiskFiles.length ≤ 100 ∧
      SortedDescBy (fun e => e.riskScore)
        (runSharedAudit fds initSharedStats).highRiskFiles) ∧
    (∀ fds : List FileData,
      (runOptInventory fds initOptStats).largeFiles.length ≤ 100 ∧
      (runOptInventory fds initOptStats).oldFiles.length ≤ 100 ∧
      (runOptInventory fds initOptStats).sharedFiles.length ≤ 100 ∧
      SortedDescBy (fun e => e.size) (runOptInventory fds initOptStats).largeFiles) ∧
    (∀ (fd : FileData) (s : OptStats), s.largeFiles.length = 100 →
      (processFileOptimized fd s).largeFiles = s.largeFiles) := by
  refine ⟨?_, ?_, ?_, ?_⟩
  · intro fds
    have h := runInventory_inv fds initStats (by constructor <;> simp [initStats, SortedDescBy])
    exact ⟨h.1, h.2.1, h.2.2.1, h.2.2.2⟩
  · intro fds
    rw [runSharedAudit_highRisk]
    exact ⟨by simp [initSharedStats], by simp [initSharedStats, SortedDescBy]⟩
  · intro fds
    have h := runOptInventory_inv fds initOptStats (by constructor <;> simp [initOptStats, SortedDescBy])
    exact ⟨h.1, h.2.1, h.2.2.1, h.2.2.2⟩
  · intro fd s h
    simp only [processFileOptimized, maxOptList]
    rw [if_neg]
    simp [h]

/-- Witness for C2amended: a cap-full optimized large-file list does
not change when another over-threshold file is processed. -/
theorem boundedTopK_amended_witness :
    ((initOptStats.largeFiles = [] → True) ∧
      (processFileOptimized { oldFileA with size := 200 * 1024 * 1024 }
          { initOptStats with
              largeFiles := List.replicate 100 ⟨"f", 999, "Root", "u"⟩ }).largeFiles =
        ({ initOptStats with
            largeFiles := List.replicate 100 ⟨"f", 999, "Root", "u"⟩ } : OptStats).largeFiles) :=
  ⟨fun _ => trivial,
    boundedTopK_amended.2.2.2 { oldFileA with size := 200 * 1024 * 1024 }
      { initOptStats with largeFiles := List.replicate 100 ⟨"f", 999, "Root", "u"⟩ }
      (by simp)⟩

/-- C9: over the records `{("a.txt",100), ("a.txt",100), ("b.txt",50)}`
the finalized duplicates report contains exactly the one `(name, size)`
group `"a.txt_100"` with its two members, and no group for `"b.txt"`
(its group has only one member and is filtered out). -/
theorem duplicates_report_example :
    generateDuplicatesReport (runInventory [dupA1, dupA2, dupB] initStats) =
      [("a.txt_100",
        [⟨"a.txt", "Root", 100, "2025-01-01T00:00:00.000Z", "ua1"⟩,
         ⟨"a.txt", "Root", 100, "2025-01-01T00:00:00.000Z", "ua2"⟩])] := by
  decide

/-- C8: a per-file failure increments the error counter and the loop
continues: running the batch over `pre ++ [failing file] ++ post`
equals bumping the error counter after `pre` and then processing all
of `post` — no file after the failure is skipped — and over any batch
the error counter grows by exactly the number of failing files while
the aggregate's file total grows by exactly the number of succeeding
files. -/
theorem perFile_error_containment :
    (∀ (pre post : List FileItem) (s : AggStats),
      runBatchFiles (pre ++ FileItem.bad :: post) s =
        runBatchFiles post
          { runBatchFiles pre s with errors := (runBatchFiles pre s).errors + 1 }) ∧
    (∀ (items : List FileItem) (s : AggStats),
      (runBatchFiles items s).errors
          = s.errors + (items.filter isBadItem).length ∧
      (runBatchFiles items s).totalFiles
          = s.totalFiles + (items.filter (fun it => !isBadItem it)).length) := by
  constructor
  · intro pre post s
    simp [runBatchFiles, List.foldl_append]
  · intro items
    induction items with
    | nil => intro s; simp [runBatchFiles]
    | cons it rest ih =>
      intro s
      cases it with
      | good fd =>
        have h := ih (processFileForInventory fd s)
        have he : (processFileForInventory fd s).errors = s.errors := rfl
        have ht : (processFileForInventory fd s).totalFiles = s.totalFiles + 1 := rfl
        simp only [runBatchFiles, List.foldl_cons] at h ⊢
        simp [isBadItem, h.1, h.2, he, ht]
        omega
      | bad =>
        have h := ih { s with errors := s.errors + 1 }
        simp only [runBatchFiles, List.foldl_cons] at h ⊢
        simp [isBadItem, h.1, h.2]
        omega

theorem fillPage_short_exhausts :
    ∀ (stream : List DriveFile) (budget : Nat),
      (fillPage budget stream).1.length < budget → (fillPage budget stream).2 = [] := by
  intro stream
  induction stream with
  | nil => intro budget _; rfl
  | cons f rest ih =>
    intro budget h
    by_cases hb : budget = 0
    · subst hb; simp at h
    · by_cases hf : shouldIncludeFile f
      · simp only [fillPage, if_neg hb, if_pos hf] at h ⊢
        simp at h
        exact ih (budget - 1) (by omega)
      · simp only [fillPage, if_neg hb, if_neg hf] at h ⊢
        exact ih budget h

set_option maxRecDepth 4000 in
/-- C6 counterexample: on `sparseDocStream` the document batch returns
a non-empty page of 10 files — fewer than `BATCH_SIZE = 50` — while
the remote iterator is *not* exhausted (the page-fill loop stopped at
its `maxCheck` bound), and the run is *not* marked COMPLETE: the
cursor is persisted and the loop continues, where the claim requires
COMPLETE for every page shorter than `BATCH_SIZE`. -/
theorem short_page_not_complete :
    (runDocumentBatchPage sparseDocStream).page.length = 10 ∧
    (runDocumentBatchPage sparseDocStream).page.length < batchSizeDocs ∧
    (runDocumentBatchPage sparseDocStream).rest ≠ [] ∧
    (runDocumentBatchPage sparseDocStream).status = RunStatus.RUNNING ∧
    (runDocumentBatchPage sparseDocStream).cursorSaved = true := by
  decide

/-- C6amended: the run is marked COMPLETE if and only if the page is
empty or the remote iterator is exhausted; a zero-length page is
COMPLETE, not an error, in both variants.  In the core
`runInventoryBatch` the page-fill loop only stops early on iterator
exhaustion, so there "fewer than `BATCH_SIZE` items" is equivalent to
that condition, and the claim's phrasing holds; in the
`maxCheck`-bounded variants (documents/shared/code) a short page does
not imply COMPLETE. -/
theorem completion_decision_amended :
    (∀ stream : List DriveFile,
      (runInventoryBatchPage stream).status = RunStatus.COMPLETE ↔
        ((runInventoryBatchPage stream).page.length < batchSizeComplete ∨
          (runInventoryBatchPage stream).rest = [])) ∧
    (∀ stream : List DriveFile,
      (runDocumentBatchPage stream).status = RunStatus.COMPLETE ↔
        ((runDocumentBatchPage stream).page = [] ∨
          (runDocumentBatchPage stream).rest = [])) := by
  constructor
  · intro stream
    rcases hpr : fillPage batchSizeComplete stream with ⟨page, rest⟩
    have hshort : page.length < batchSizeComplete → rest = [] := by
      intro h
      have := fillPage_short_exhausts stream batchSizeComplete
      rw [hpr] at this
      exact this h
    by_cases hp : page = []
    · subst hp
      have hrw : runInventoryBatchPage stream = ⟨RunStatus.COMPLETE, [], rest, false⟩ := by
        simp [runInventoryBatchPage, hpr]
      rw [hrw]
      simp [batchSizeComplete]
    · by_cases hr : rest = []
      · subst hr
        have hrw : runInventoryBatchPage stream = ⟨RunStatus.COMPLETE, page, [], false⟩ := by
          simp [runInventoryBatchPage, hpr, hp]
        rw [hrw]
        simp
      · have hlen : ¬ (page.length < batchSizeComplete) := fun h => hr (hshort h)
        have hrw : runInventoryBatchPage stream = ⟨RunStatus.RUNNING, page, rest, true⟩ := by
          simp [runInventoryBatchPage, hpr, hp, hr]
        rw [hrw]
        simp [hr, hlen]
  · intro stream
    rcases hpr : fillPageDoc batchSizeDocs (batchSizeDocs * 10) stream with ⟨page, rest⟩
    by_cases hp : page = []
    · subst hp
      have hrw : runDocumentBatchPage stream = ⟨RunStatus.COMPLETE, [], rest, false⟩ := by
        simp [runDocumentBatchPage, hpr]
      rw [hrw]
      simp
    · by_cases hr : rest = []
      · subst hr
        have hrw : runDocumentBatchPage stream = ⟨RunStatus.COMPLETE, page, [], false⟩ := by
          simp [runDocumentBatchPage, hpr, hp]
        rw [hrw]
        simp
      · have hrw : runDocumentBatchPage stream = ⟨RunStatus.RUNNING, page, rest, true⟩ := by
          simp [runDocumentBatchPage, hpr, hp, hr]
        rw [hrw]
        simp [hp, hr]

/-- C7 counterexample: when the checkpoint save fails (quota
exceeded), the batch terminates by an uncaught exception with the
previously persisted checkpoint intact — but the recorded status is
still `RUNNING`, never `ERROR`: no ERROR transition exists on this
path, where the claim requires one. -/
theorem save_failure_status_not_error :
    (runInventoryBatchSave (fun _ => true) priorStore [FileItem.good dupB] true "T1").threw
      = true ∧
    (runInventoryBatchSave (fun _ => true) priorStore [FileItem.good dupB] true "T1").store
      = priorStore ∧
    (runInventoryBatchSave (fun _ => true) priorStore [FileItem.good dupB] true "T1").shownStatus
      ≠ RunStatus.ERROR := by
  decide

/-- C7amended: if saving the serialized aggregate state fails, the
previously persisted (smaller) checkpoint record remains readable and
unchanged and the failure is surfaced as an uncaught exception
aborting the run — but the run does *not* transition to status ERROR:
the last recorded status remains RUNNING. -/
theorem checkpoint_save_failure_amended
    (quotaFails : AggStats → Bool) (store : PropStore) (page : List FileItem)
    (hasMore : Bool) (nextToken : String)
    (hp : page ≠ [])
    (hq : quotaFails (runBatchFiles page (store.inventoryStats.getD initStats)) = true) :
    (runInventoryBatchSave quotaFails store page hasMore nextToken).threw = true ∧
    (runInventoryBatchSave quotaFails store page hasMore nextToken).store = store ∧
    (runInventoryBatchSave quotaFails store page hasMore nextToken).shownStatus
      = RunStatus.RUNNING := by
  simp [runInventoryBatchSave, hp, hq]

/-- Witness for C7amended at a concrete input: a failing save on a
one-file page leaves the prior checkpoint untouched. -/
theorem checkpoint_save_failure_amended_witness :
    ([FileItem.good dupB] ≠ ([] : List FileItem)) ∧
    ((runInventoryBatchSave (fun _ => true) priorStore [FileItem.good dupB] false "T2").threw
        = true ∧
      (runInventoryBatchSave (fun _ => true) priorStore [FileItem.good dupB] false "T2").store
        = priorStore ∧
      (runInventoryBatchSave (fun _ => true) priorStore [FileItem.good dupB] false "T2").shownStatus
        = RunStatus.RUNNING) :=
  ⟨by decide,
    checkpoint_save_failure_amended (fun _ => true) priorStore [FileItem.good dupB]
      false "T2" (by decide) rfl⟩

/-- C1: evaluation of the failing input.  One uninterrupted pass over
the two `ProjectX` files finishes with no error and a repository
record holding both languages and the later activity timestamp;
running the same input as two batches with a checkpoint
serialize/reload between them turns the repository's language Set into
a plain object, so processing the second file throws at
`languages.add`, the error counter becomes 1, the language set and the
activity update are lost, and the grouped owner tallies diverge — the
two final aggregate states are not identical. -/
theorem resumption_not_idempotent_for_code_files :
    (runCodeFiles [jsAppFile, pyToolFile] initCodeStats).errors = 0 ∧
    (runCodeBatches [[jsAppFile], [pyToolFile]] initCodeStats).errors = 1 ∧
    rlookup (runCodeFiles [jsAppFile, pyToolFile] initCodeStats).repositories "ProjectX"
      = some ⟨2, LangsVal.jsSet ["JavaScript", "Python"], false,
          "2024-02-01T00:00:00.000Z"⟩ ∧
    rlookup (runCodeBatches [[jsAppFile], [pyToolFile]] initCodeStats).repositories "ProjectX"
      = some ⟨2, LangsVal.plainObj, false, "2024-01-01T00:00:00.000Z"⟩ ∧
    (runCodeBatches [[jsAppFile], [pyToolFile]] initCodeStats).byOwner
      ≠ (runCodeFiles [jsAppFile, pyToolFile] initCodeStats).byOwner := by
  refine ⟨by decide, by decide, by decide, by decide, by decide⟩
